import Mathlib

/-!
# Upload handlers of the file-storage server

A shallow embedding of `handler_upload_thumbnail.go` and `handler_upload_video.go`.

Calls that leave the process (the request parser, the authenticator, the video
repository, the filesystem, the entropy source, `ffmpeg`, `ffprobe`, the object store)
are answered by a `World` record: one field per call, holding what the call returns.
A handler is a function from a `World` to an `Outcome`: the response it sent (or the
panic it died with) and the ordered trace of the effects it performed.

Go strings are Lean `String`s; bytes are `Nat`s below 256.
-/

namespace Tubely

/-! ## encoding/base64: `RawURLEncoding.EncodeToString` -/

/-- The URL-safe alphabet of `base64.URLEncoding` (RFC 4648 §5), in index order. -/
def encodeURL : List Char :=
  "ABCDEFGHIJKLMNOPQRSTUVWXYZabcdefghijklmnopqrstuvwxyz0123456789-_".data

/-- Lookup `enc.encode[i]`; every call site masks `i` with `0x3F`. -/
def encodeAt (i : Nat) : Char := encodeURL.getD i 'A'

/-- The body of `(*Encoding).Encode` for an encoding without padding: full 3-byte groups
give 4 characters each; a remainder of 2 bytes gives 3 characters, of 1 byte 2. -/
def rawURLEncode : List Nat → List Char
  | a :: b :: c :: rest =>
    let val := (a <<< 16) ||| (b <<< 8) ||| c
    encodeAt ((val >>> 18) &&& 0x3F) :: encodeAt ((val >>> 12) &&& 0x3F) ::
      encodeAt ((val >>> 6) &&& 0x3F) :: encodeAt (val &&& 0x3F) :: rawURLEncode rest
  | [a, b] =>
    let val := (a <<< 16) ||| (b <<< 8)
    [encodeAt ((val >>> 18) &&& 0x3F), encodeAt ((val >>> 12) &&& 0x3F),
      encodeAt ((val >>> 6) &&& 0x3F)]
  | [a] =>
    let val := a <<< 16
    [encodeAt ((val >>> 18) &&& 0x3F), encodeAt ((val >>> 12) &&& 0x3F)]
  | [] => []

/-- The call `base64.RawURLEncoding.EncodeToString(src)`. -/
def EncodeToString (src : List Nat) : String := String.mk (rawURLEncode src)

/-- Membership in the character class `[A-Za-z0-9_-]`. -/
def isURLSafe (c : Char) : Bool :=
  ('A' ≤ c && c ≤ 'Z') || ('a' ≤ c && c ≤ 'z') || ('0' ≤ c && c ≤ '9') || c == '_' || c == '-'

/-! ## strings.Split and path.Join -/

/-- The call `strings.Split(s, sep)` for a one-byte separator: the pieces of `s` between
consecutive occurrences of `sep`; a string without `sep` gives the one piece `s`. -/
def splitChars (sep : Char) : List Char → List (List Char)
  | [] => [[]]
  | c :: cs =>
    if c = sep then [] :: splitChars sep cs
    else
      match splitChars sep cs with
      | [] => [[c]]
      | piece :: pieces => (c :: piece) :: pieces

/-- String form of `splitChars`. -/
def Split (s : String) (sep : Char) : List String := (splitChars sep s.data).map String.mk

/-- State of the scanning loop of `path.Clean`. `inElem` is set while the inner loop of the
default case is copying an element; `out` is the written part of the output buffer (so
`out.w` is `out.length`); `dotdot` is the index below which `..` must not backtrack. -/
structure CleanState where
  inElem : Bool
  out : List Char
  dotdot : Nat
deriving DecidableEq

/-- The backtracking of `path.Clean` after the first `out.w--`:
`for out.w > dotdot && out.index(out.w) != '/' { out.w-- }`, returning the final `out.w`. -/
def backtrack (out : List Char) (dotdot : Nat) : Nat → Nat
  | 0 => 0
  | w + 1 => if w + 1 > dotdot ∧ out.getD (w + 1) '/' ≠ '/' then backtrack out dotdot w else w + 1

/-- The `..` case of `path.Clean`: backtrack when possible, otherwise (unrooted path) keep
the `..` element and move the barrier; a `..` at the root is dropped. -/
def dotdotElem (rooted : Bool) (st : CleanState) : CleanState :=
  if st.out.length > st.dotdot then
    { st with out := st.out.take (backtrack st.out st.dotdot (st.out.length - 1)) }
  else if !rooted then
    let out := (if st.out.length > 0 then st.out ++ ['/'] else st.out) ++ ['.', '.']
    { st with out := out, dotdot := out.length }
  else st

/-- The default case of `path.Clean` up to the first byte of the element: add a slash if
needed, then copy the byte `c`. -/
def startElem (rooted : Bool) (c : Char) (st : CleanState) : CleanState :=
  let out := if (rooted && st.out.length != 1) || (!rooted && st.out.length != 0)
    then st.out ++ ['/'] else st.out
  { st with inElem := true, out := out ++ [c] }

/-- The loop `for r < n` of `path.Clean`, over the unread part of the path. -/
def cleanLoop (rooted : Bool) : List Char → CleanState → CleanState
  | [], st => st
  | [c], st =>
    if st.inElem then
      if c = '/' then { st with inElem := false } else { st with out := st.out ++ [c] }
    else if c = '/' then st
    else if c = '.' then st
    else startElem rooted c st
  | c :: d :: rest, st =>
    if st.inElem then
      if c = '/' then cleanLoop rooted (d :: rest) { st with inElem := false }
      else cleanLoop rooted (d :: rest) { st with out := st.out ++ [c] }
    else if c = '/' then cleanLoop rooted (d :: rest) st
    else if c = '.' ∧ d = '/' then cleanLoop rooted (d :: rest) st
    else if c = '.' ∧ d = '.' ∧ (rest = [] ∨ rest.head? = some '/') then
      cleanLoop rooted rest (dotdotElem rooted st)
    else cleanLoop rooted (d :: rest) (startElem rooted c st)

/-- The function `path.Clean` on the bytes of a path. -/
def cleanChars (path : List Char) : List Char :=
  match path with
  | [] => ['.']
  | c :: _ =>
    let rooted := c == '/'
    let init : CleanState :=
      if rooted then { inElem := false, out := ['/'], dotdot := 1 }
      else { inElem := false, out := [], dotdot := 0 }
    let st := cleanLoop rooted path init
    if st.out.length = 0 then ['.'] else st.out

/-- The function `path.Clean`. -/
def Clean (path : String) : String := String.mk (cleanChars path.data)

/-- The call `path.Join(e)` with a single element: empty stays empty, anything else is
cleaned. -/
def Join (e : String) : String := if e = "" then "" else Clean e

/-! ## Data model -/

/-- Values of `uuid.UUID`, kept abstract. -/
abbrev UUID := Nat

/-- Modelled from the spec: the record type `database.Video`, declared outside the two
handler files. Per the spec's data model a video record has an identity, an owning user,
an optional thumbnail location, an optional video location and caller-supplied metadata. -/
structure Video where
  ID : UUID
  UserID : UUID
  ThumbnailURL : Option String
  VideoURL : Option String
  Title : String
  Description : String
deriving DecidableEq

/-- One element of the `Streams` field that `getVideoAspectRatio` decodes. -/
structure Stream where
  Width : Int
  Height : Int
deriving DecidableEq

/-- The local type `video` of `getVideoAspectRatio`, as filled by `json.Unmarshal`. -/
structure video where
  Streams : List Stream
deriving DecidableEq

/-- What running `ffprobe` and decoding its standard output gives. -/
inductive ProbeResult
  /-- The call `cmd.Run()` returned an error. -/
  | runFailed
  /-- The call `json.Unmarshal` returned an error. -/
  | unparsable
  /-- The call `json.Unmarshal` succeeded and left this value in `vidSize`; an output with
  an empty, null or absent `streams` array leaves `Streams` empty. -/
  | parsed (vidSize : video)
deriving DecidableEq

/-- Result of a Go function returning `(value, error)`, which may also panic. -/
inductive GoResult (α : Type)
  | ok (v : α)
  | err (msg : String)
  | panic (msg : String)
deriving DecidableEq

/-- Body handed to `respondWithJSON`. -/
inductive Payload
  /-- The video handler passes the record itself. -/
  | record (v : Video)
  /-- The thumbnail handler passes the bytes `json.Marshal(video)`. -/
  | marshalled (v : Video)
deriving DecidableEq

/-- Modelled from the spec: the helpers `respondWithError` and `respondWithJSON` are defined
outside the two handler files. Per the spec a response is the serialised record, or an
error given as a (status code, message) pair. -/
inductive Response
  | error (code : Nat) (msg : String)
  | json (code : Nat) (payload : Payload)
deriving DecidableEq

abbrev StatusOK : Nat := 200
abbrev StatusBadRequest : Nat := 400
abbrev StatusUnauthorized : Nat := 401
abbrev StatusInternalServerError : Nat := 500

/-- Effects a handler performs, in program order. -/
inductive Event
  /-- The call `os.CreateTemp` created the file `name`. -/
  | CreateTemp (name : String)
  /-- The call `os.Create` created or truncated the file `path`. -/
  | Create (path : String)
  /-- The call `io.Copy` wrote upload bytes into the open file `dst`; `failed` is its error. -/
  | Copy (dst : String) (failed : Bool)
  /-- The tool `ffmpeg` ran on `input`; `wrote` tells whether `output` exists afterwards. -/
  | Ffmpeg (input output : String) (wrote : Bool)
  /-- The call `PutObject` was issued. -/
  | PutObject (bucket key contentType body : String)
  /-- The call `cfg.db.UpdateVideo` was issued. -/
  | UpdateVideo (v : Video)
  /-- The call `os.Remove` was issued (from a `defer`). -/
  | Remove (path : String)
deriving DecidableEq

/-- Everything outside the handler: configuration, the request as seen through the parsing
calls, and the answer of every external call. -/
structure World where
  /-- The field `cfg.assetsRoot`. -/
  assetsRoot : String
  /-- The field `cfg.port`. -/
  port : String
  /-- The field `cfg.s3Bucket`. -/
  s3Bucket : String
  /-- The field `cfg.s3CfDistribution`. -/
  s3CfDistribution : String
  /-- Whether `r.ParseForm()` on the size-limited body returns an error. -/
  parseFormErr : Bool
  /-- The result of `uuid.Parse(r.PathValue("videoID"))`. -/
  videoID : Option UUID
  /-- The result of `auth.GetBearerToken(r.Header)`. -/
  bearerToken : Option String
  /-- The result of `auth.ValidateJWT(token, cfg.jwtSecret)`. -/
  validateJWT : String → Option UUID
  /-- Whether `r.ParseMultipartForm(maxMem)` returns an error. -/
  parseMultipartFormErr : Bool
  /-- The result of `r.FormFile(field)`: the Content-Type header of the part. -/
  formFile : String → Option String
  /-- The media type that `mime.ParseMediaType` returns on a non-empty value. -/
  parseMediaType : String → Option String
  /-- The result of `cfg.db.GetVideo`. -/
  getVideo : UUID → Option Video
  /-- Whether `cfg.db.UpdateVideo` returns an error. -/
  updateVideoErr : Video → Bool
  /-- The result of `rand.Read`: on success byte `i` of the buffer is `fill i % 256`. -/
  randRead : Option (Nat → Nat)
  /-- Whether `os.Create(path)` returns an error. -/
  createErr : String → Bool
  /-- The result of `os.CreateTemp("", "tubely-upload.mp4")`: the name of the new file. -/
  createTemp : Option String
  /-- Whether `io.Copy` of the upload returns an error. -/
  copyErr : Bool
  /-- Whether `tempFile.Seek(0, io.SeekStart)` returns an error. -/
  seekErr : Bool
  /-- Whether the `ffmpeg` run returns an error. -/
  ffmpegErr : Bool
  /-- Whether the `ffmpeg` run left a file at its output path. -/
  ffmpegWrote : Bool
  /-- Whether `os.Open(path)` returns an error. -/
  openErr : String → Bool
  /-- The `ffprobe` run on a path, decoded. -/
  ffprobe : String → ProbeResult
  /-- Whether `PutObject` returns an error. -/
  putObjectErr : Bool
  /-- Whether `json.Marshal(video)` returns an error. -/
  marshalErr : Bool

/-- How a handler run ends: the response sent, the panic raised (if any), and the effects
performed, deferred calls included. -/
structure Outcome where
  response : Option Response
  panic : Option String
  trace : List Event
deriving DecidableEq

/-- The call `respondWithError(w, code, msg, err)` followed by `return`. -/
def respondWithError (trace : List Event) (code : Nat) (msg : String) : Outcome :=
  { response := some (.error code msg), panic := none, trace := trace }

/-- The call `respondWithJSON(w, code, payload)` followed by the end of the handler. -/
def respondWithJSON (trace : List Event) (code : Nat) (payload : Payload) : Outcome :=
  { response := some (.json code payload), panic := none, trace := trace }

/-- A run-time panic unwinding the handler: nothing is written to the response. -/
def panicWith (trace : List Event) (msg : String) : Outcome :=
  { response := none, panic := some msg, trace := trace }

/-- The call `mime.ParseMediaType(v)`, media type only: the empty value is rejected with
"mime: no media type"; other values are answered by the world. -/
def ParseMediaType (w : World) (v : String) : Option String :=
  if v = "" then none else w.parseMediaType v

/-- The buffer `randBytes` after a successful `rand.Read`: 32 bytes. -/
def randBytes (fill : Nat → Nat) : List Nat := (List.range 32).map (fun i => fill i % 256)

/-- The files present after a trace, starting from the files `fs`. -/
def filesAfter (fs : List String) : List Event → List String
  | [] => fs
  | .CreateTemp name :: es => filesAfter (name :: fs) es
  | .Create path :: es => filesAfter (path :: fs) es
  | .Ffmpeg _ output true :: es => filesAfter (output :: fs) es
  | .Remove path :: es => filesAfter (fs.filter (fun f => f ≠ path)) es
  | _ :: es => filesAfter fs es

/-! ## handler_upload_video.go -/

/-- Modelled from the spec: the helper `ar`, which `getVideoAspectRatio` calls as
`ar(w, h, 16) && ar(h, w, 9)` and whose body is not in the two handler files. The spec
describes the classification as a tolerance-based ratio test: two ratios match when they
are within a small relative tolerance. Here `ar tol a b n` tests whether `a : b` matches
`n : m` within `tol` thousandths of `n : m`, where `m` is the other term of the pair 16, 9
(cross-multiplied, so that only integers are compared). -/
def ar (tol : Nat) (a b n : Int) : Bool :=
  let m : Int := if n = 16 then 9 else 16
  decide ((a * m - b * n).natAbs * 1000 ≤ tol * (b * n).natAbs)

/-- The function `getVideoAspectRatio`, with the helper `ar` and the `ffprobe` run as
parameters. Indexing `vidSize.Streams[0]` panics on an empty slice. -/
def getVideoAspectRatio (ar : Int → Int → Int → Bool) (ffprobe : String → ProbeResult)
    (filePath : String) : GoResult String :=
  match ffprobe filePath with
  | .runFailed => .err "error running ffprobe command"
  | .unparsable => .err "error unmarshalling in aspect ratio"
  | .parsed vidSize =>
    match vidSize.Streams with
    | [] => .panic "index out of range [0] with length 0"
    | s :: _ =>
      let w := s.Width
      let h := s.Height
      if ar w h 9 && ar h w 16 then .ok "9:16"
      else if ar w h 16 && ar h w 9 then .ok "16:9"
      else .ok "other"

/-- The function `processVideoForFastStart`: the returned path (`none` for an error) and
the `ffmpeg` run it performed. -/
def processVideoForFastStart (w : World) (filePath : String) : Option String × Event :=
  let newFilePath := filePath ++ ".processing"
  let run := Event.Ffmpeg filePath newFilePath w.ffmpegWrote
  if w.ffmpegErr then (none, run) else (some newFilePath, run)

/-- The three consecutive `if ar == ...` statements of `handlerUploadVideo`, each of which
may put a directory in front of the key. -/
def routeKey (ar key : String) : String :=
  let key := if ar = "16:9" then "landscape/" ++ key else key
  let key := if ar = "9:16" then "portrait/" ++ key else key
  let key := if ar = "other" then "other/" ++ key else key
  key

/-- The method `handlerUploadVideo`. Deferred `os.Remove` calls are appended to the trace
at every exit reached after their `defer` statement, last registered first. The two
statements `defer os.Remove(f.Name())` evaluate `f.Name()` before `err` is checked, which
dereferences a nil `*os.File` when the preceding call failed. The test `if err != nil`
that follows `video.VideoURL = &url` re-reads the error of `PutObject`, known to be nil
there, and has no branch here. -/
def handlerUploadVideo (ar : Int → Int → Int → Bool) (w : World) : Outcome :=
  if w.parseFormErr then respondWithError [] StatusBadRequest "Exceded size limit" else
  match w.videoID with
  | none => respondWithError [] StatusBadRequest "Invalid ID"
  | some videoID =>
  match w.bearerToken with
  | none => respondWithError [] StatusUnauthorized "Couldn't find JWT"
  | some token =>
  match w.validateJWT token with
  | none => respondWithError [] StatusUnauthorized "Couldn't validate JWT"
  | some userID =>
  match w.getVideo videoID with
  | none =>
    respondWithError [] StatusInternalServerError "Unable to retrieve the video metadata"
  | some video =>
  if video.UserID ≠ userID then respondWithError [] StatusUnauthorized "Unauthorized user" else
  match w.formFile "video" with
  | none => respondWithError [] StatusBadRequest "Unable to get video"
  | some contentType =>
  match ParseMediaType w contentType with
  | none => respondWithError [] StatusBadRequest "Invalid Content-Type"
  | some mediatype =>
  if mediatype ≠ "video/mp4" then respondWithError [] StatusBadRequest "Invalid file type" else
  match w.createTemp with
  | none => panicWith [] "invalid memory address or nil pointer dereference"
  | some tempName =>
  let d1 := [Event.Remove tempName]
  let t2 := [Event.CreateTemp tempName, Event.Copy tempName w.copyErr]
  if w.copyErr then
    respondWithError (t2 ++ d1) StatusInternalServerError "Unable to copy file" else
  if w.seekErr then
    respondWithError (t2 ++ d1) StatusInternalServerError "Unable to reset pointer" else
  let fast := processVideoForFastStart w tempName
  let t3 := t2 ++ [fast.2]
  match fast.1 with
  | none =>
    respondWithError (t3 ++ d1) StatusInternalServerError "Unable to process fro fast start"
  | some fsTempFile =>
  if w.openErr fsTempFile then
    panicWith (t3 ++ d1) "invalid memory address or nil pointer dereference" else
  let d2 := Event.Remove fsTempFile :: d1
  match w.randRead with
  | none =>
    respondWithError (t3 ++ d2) StatusInternalServerError "Unable to populate with random bytes"
  | some fill =>
  let randStr := EncodeToString (randBytes fill)
  if randStr = "" then
    respondWithError (t3 ++ d2) StatusInternalServerError "Unable to create random string" else
  let key := randStr ++ ".mp4"
  match getVideoAspectRatio ar w.ffprobe fsTempFile with
  | .panic msg => panicWith (t3 ++ d2) msg
  | .err _ => respondWithError (t3 ++ d2) StatusInternalServerError "Unable to get Aspect Ratio"
  | .ok ratio =>
  let key := routeKey ratio key
  let t4 := t3 ++ [Event.PutObject w.s3Bucket key mediatype fsTempFile]
  if w.putObjectErr then
    respondWithError (t4 ++ d2) StatusInternalServerError "Unable to put object" else
  let url := w.s3CfDistribution ++ "/" ++ key
  let video := { video with VideoURL := some url }
  let t5 := t4 ++ [Event.UpdateVideo video]
  if w.updateVideoErr video then
    respondWithError (t5 ++ d2) StatusInternalServerError "Unable to update video" else
  respondWithJSON (t5 ++ d2) StatusOK (.record video)

/-! ## handler_upload_thumbnail.go -/

/-- The method `handlerUploadThumbnail`. The results of `io.Copy` and of
`cfg.db.UpdateVideo` are discarded by the source, so neither `w.copyErr` nor
`w.updateVideoErr` decides a branch. -/
def handlerUploadThumbnail (w : World) : Outcome :=
  match w.videoID with
  | none => respondWithError [] StatusBadRequest "Invalid ID"
  | some videoID =>
  match w.bearerToken with
  | none => respondWithError [] StatusUnauthorized "Couldn't find JWT"
  | some token =>
  match w.validateJWT token with
  | none => respondWithError [] StatusUnauthorized "Couldn't validate JWT"
  | some userID =>
  if w.parseMultipartFormErr then
    respondWithError [] StatusInternalServerError "Unable to parse max memory" else
  match w.formFile "thumbnail" with
  | none => respondWithError [] StatusBadRequest "Unable to find thumbnail"
  | some contentType =>
  if contentType = "" then respondWithError [] StatusBadRequest "Empty Content-Type" else
  match ParseMediaType w contentType with
  | none => respondWithError [] StatusBadRequest "Unable to parse Content-Type"
  | some mediaType =>
  if mediaType ≠ "image/jpeg" ∧ mediaType ≠ "image/png" then
    respondWithError [] StatusBadRequest "Invalid file" else
  match w.getVideo videoID with
  | none => respondWithError [] StatusInternalServerError "Unable to retreive the video"
  | some video =>
  if video.UserID ≠ userID then respondWithError [] StatusUnauthorized "Unauthorized user" else
  match w.randRead with
  | none =>
    respondWithError [] StatusInternalServerError "Unable to populate with random bytes"
  | some fill =>
  let randStr := EncodeToString (randBytes fill)
  if randStr = "" then
    respondWithError [] StatusInternalServerError "Unable to create random string" else
  match (Split mediaType '/').get? 1 with
  | none => panicWith [] "index out of range [1] with length 1"
  | some ext =>
  let filePath := Join (w.assetsRoot ++ "/" ++ randStr ++ "." ++ ext)
  if w.createErr filePath then
    respondWithError [] StatusInternalServerError "Unable to create file" else
  let url := "http://localhost:" ++ w.port ++ "/" ++ filePath
  let video := { video with ThumbnailURL := some url }
  let t := [Event.Create filePath, Event.Copy filePath w.copyErr, Event.UpdateVideo video]
  if w.marshalErr then
    respondWithError t StatusInternalServerError "Unable to marshal video" else
  respondWithJSON t StatusOK (.marshalled video)

/-! ## Concrete worlds -/

/-- The keys of the `PutObject` calls of a trace, in order. -/
def putObjectKeys : List Event → List String
  | [] => []
  | .PutObject _ key _ _ :: es => key :: putObjectKeys es
  | _ :: es => putObjectKeys es

/-- The record the sample worlds hold for video 7, owned by user 1. -/
def sampleVideo : Video :=
  { ID := 7, UserID := 1, ThumbnailURL := none, VideoURL := none,
    Title := "holiday", Description := "" }

/-- A world in which every call succeeds: user 1 uploads, for their own video 7, a PNG
thumbnail and a 1920x1080 MP4. The assets root is the relative directory `./assets`. -/
def okWorld : World where
  assetsRoot := "./assets"
  port := "8091"
  s3Bucket := "tubely"
  s3CfDistribution := "https://cdn.example.com"
  parseFormErr := false
  videoID := some 7
  bearerToken := some "token-of-user-1"
  validateJWT := fun token => if token = "token-of-user-1" then some 1 else
    if token = "token-of-user-2" then some 2 else none
  parseMultipartFormErr := false
  formFile := fun field => if field = "thumbnail" then some "image/png" else
    if field = "video" then some "video/mp4" else none
  parseMediaType := fun v => if v = "image/png" ∨ v = "image/jpeg" ∨ v = "image/gif"
    ∨ v = "video/mp4" then some v else none
  getVideo := fun id => if id = 7 then some sampleVideo else none
  updateVideoErr := fun _ => false
  randRead := some (fun i => i)
  createErr := fun _ => false
  createTemp := some "/tmp/tubely-upload.mp4123"
  copyErr := false
  seekErr := false
  ffmpegErr := false
  ffmpegWrote := true
  openErr := fun _ => false
  ffprobe := fun _ => .parsed { Streams := [{ Width := 1920, Height := 1080 }] }
  putObjectErr := false
  marshalErr := false

/-- The random identifier of `okWorld`: the encoding of the bytes 0, 1, ..., 31. -/
def okRandStr : String := "AAECAwQFBgcICQoLDA0ODxAREhMUFRYXGBkaGxwdHh8"

/-- The record `handlerUploadVideo` returns in `okWorld`. -/
def okUploadedVideo : Video :=
  { sampleVideo with
    VideoURL := some ("https://cdn.example.com/landscape/" ++ okRandStr ++ ".mp4") }

/-- The path at which `handlerUploadThumbnail` stores the thumbnail in `okWorld`. -/
def okThumbnailPath : String := "assets/" ++ okRandStr ++ ".png"

/-- The record `handlerUploadThumbnail` marshals in `okWorld`. -/
def okThumbnailVideo : Video :=
  { sampleVideo with ThumbnailURL := some ("http://localhost:8091/" ++ okThumbnailPath) }

/-- As `okWorld`, but the assets root is the clean relative path `assets`. -/
def cleanRootWorld : World := { okWorld with assetsRoot := "assets" }

/-- As `okWorld`, but the repository rejects the update. -/
def updateFailsWorld : World := { okWorld with updateVideoErr := fun _ => true }

/-- As `okWorld`, but copying the upload to disk fails. -/
def copyFailsWorld : World := { okWorld with copyErr := true }

/-- As `okWorld`, but the temporary file cannot be created. -/
def createTempFailsWorld : World := { okWorld with createTemp := none }

/-- As `okWorld`, but the processed file cannot be opened (say, no descriptor is left). -/
def openFailsWorld : World := { okWorld with openErr := fun _ => true }

/-- As `okWorld`, but `ffmpeg` fails after it has started to write its output. -/
def ffmpegFailsWorld : World := { okWorld with ffmpegErr := true }

/-- As `okWorld`, but `ffprobe` prints valid JSON with an empty `streams` array. -/
def noStreamsWorld : World :=
  { okWorld with ffprobe := fun _ => .parsed { Streams := [] } }

/-- As `okWorld`, but the caller is user 2, who does not own video 7. -/
def otherUserWorld : World := { okWorld with bearerToken := some "token-of-user-2" }

/-- As `okWorld`, but the thumbnail part is declared `image/gif` and the video part
carries no content type. -/
def badTypeWorld : World :=
  { okWorld with formFile := fun field => if field = "thumbnail" then some "image/gif" else
      if field = "video" then some "" else none }

/-! ## The random identifier -/

/-- A masked index always selects a character of the URL-safe class. -/
theorem encodeAt_safe (i : Nat) : isURLSafe (encodeAt (i &&& 0x3F)) = true := by
  have h : i &&& 0x3F < 64 := Nat.lt_succ_of_le Nat.and_le_right
  have key : ∀ j, j < 64 → isURLSafe (encodeAt j) = true := by decide
  exact key _ h

/-- Every character the encoder emits is in the URL-safe class. -/
theorem rawURLEncode_safe (src : List Nat) : ∀ c ∈ rawURLEncode src, isURLSafe c = true := by
  induction src using rawURLEncode.induct with
  | case1 a b c rest ih =>
    intro x hx
    simp only [rawURLEncode, List.mem_cons] at hx
    rcases hx with h | h | h | h | h
    · rw [h]; exact encodeAt_safe _
    · rw [h]; exact encodeAt_safe _
    · rw [h]; exact encodeAt_safe _
    · rw [h]; exact encodeAt_safe _
    · exact ih x h
  | case2 a b =>
    intro x hx
    simp only [rawURLEncode, List.mem_cons, List.not_mem_nil, or_false] at hx
    rcases hx with h | h | h
    · rw [h]; exact encodeAt_safe _
    · rw [h]; exact encodeAt_safe _
    · rw [h]; exact encodeAt_safe _
  | case3 a =>
    intro x hx
    simp only [rawURLEncode, List.mem_cons, List.not_mem_nil, or_false] at hx
    rcases hx with h | h
    · rw [h]; exact encodeAt_safe _
    · rw [h]; exact encodeAt_safe _
  | case4 => intro x hx; simp [rawURLEncode] at hx

/-- The encoder emits `EncodedLen(n)` characters: `n / 3 * 4 + (n % 3 * 8 + 5) / 6`. -/
theorem rawURLEncode_length (src : List Nat) :
    (rawURLEncode src).length = src.length / 3 * 4 + (src.length % 3 * 8 + 5) / 6 := by
  induction src using rawURLEncode.induct with
  | case1 a b c rest ih =>
    simp only [rawURLEncode, List.length_cons, ih]
    omega
  | case2 a b => simp [rawURLEncode]
  | case3 a => simp [rawURLEncode]
  | case4 => simp [rawURLEncode]

/-- The buffer `randBytes` has 32 bytes. -/
theorem randBytes_length (fill : Nat → Nat) : (randBytes fill).length = 32 := by
  simp [randBytes]

/-- Thirty-two bytes encode to 43 characters. -/
theorem EncodeToString_length (src : List Nat) (h : src.length = 32) :
    (EncodeToString src).length = 43 := by
  simp [EncodeToString, String.length, rawURLEncode_length, h]

/-- Thirty-two bytes never encode to the empty string. -/
theorem EncodeToString_ne_empty (src : List Nat) (h : src.length = 32) :
    EncodeToString src ≠ "" := by
  intro he
  have := EncodeToString_length src h
  rw [he] at this
  simp at this

/-- The padding character is outside the URL-safe class. -/
theorem isURLSafe_ne_pad (c : Char) (h : isURLSafe c = true) : c ≠ '=' := by
  rintro rfl
  revert h
  decide

end Tubely
namespace Tubely

/-- The condition `randStr == ""` of both handlers is false. -/
theorem randStr_ne_empty (fill : Nat → Nat) : EncodeToString (randBytes fill) ≠ "" :=
  EncodeToString_ne_empty _ (randBytes_length fill)

/-- Claim C8: the identifier made from any 32 bytes has exactly 43 characters, is not empty,
has no `=` padding and only characters of `[A-Za-z0-9_-]`; and neither handler can ever
answer from its `randStr == ""` branch. -/
theorem random_id_well_formed (src : List Nat) (h : src.length = 32) :
    (EncodeToString src).length = 43 ∧ EncodeToString src ≠ "" ∧
    '=' ∉ (EncodeToString src).data ∧
    (∀ c ∈ (EncodeToString src).data, isURLSafe c = true) ∧
    (∀ w : World, (handlerUploadThumbnail w).response ≠
      some (.error StatusInternalServerError "Unable to create random string")) ∧
    (∀ (ar : Int → Int → Int → Bool) (w : World), (handlerUploadVideo ar w).response ≠
      some (.error StatusInternalServerError "Unable to create random string")) := by
  refine ⟨EncodeToString_length src h, EncodeToString_ne_empty src h, ?_, ?_, ?_, ?_⟩
  · intro hmem
    exact isURLSafe_ne_pad _ (rawURLEncode_safe src _ hmem) rfl
  · exact rawURLEncode_safe src
  · intro w
    unfold handlerUploadThumbnail
    simp only [randStr_ne_empty, if_false]
    repeat' split
    all_goals simp [respondWithError, respondWithJSON, panicWith]
  · intro ar w
    unfold handlerUploadVideo
    simp only [randStr_ne_empty, if_false]
    repeat' split
    all_goals simp [respondWithError, respondWithJSON, panicWith]

/-- Witness of C8 at the 32 bytes 0, 1, ..., 31. -/
theorem random_id_well_formed_witness :
    (List.range 32).length = 32 ∧ (EncodeToString (List.range 32)).length = 43 :=
  ⟨by decide, (random_id_well_formed (List.range 32) (by decide)).1⟩

/-! ## Aspect-ratio classification -/

/-- Claim C1: with the tolerance-based `ar` of the spec, at any tolerance up to 437
thousandths, a first stream of 1920x1080 is classified "16:9", one of 1080x1920 "9:16" and
one of 1000x1000 "other", each time without an error. -/
theorem aspect_ratio_fixtures (tol : Nat) (htol : tol ≤ 437) (filePath : String)
    (rest : List Stream) :
    getVideoAspectRatio (ar tol)
      (fun _ => .parsed { Streams := { Width := 1920, Height := 1080 } :: rest }) filePath
      = .ok "16:9" ∧
    getVideoAspectRatio (ar tol)
      (fun _ => .parsed { Streams := { Width := 1080, Height := 1920 } :: rest }) filePath
      = .ok "9:16" ∧
    getVideoAspectRatio (ar tol)
      (fun _ => .parsed { Streams := { Width := 1000, Height := 1000 } :: rest }) filePath
      = .ok "other" := by
  refine ⟨?_, ?_, ?_⟩
  · have h1 : ar tol 1920 1080 9 = false := by
      simp only [ar]; norm_num; omega
    have h2 : ar tol 1920 1080 16 = true := by
      simp only [ar]; norm_num
    have h3 : ar tol 1080 1920 9 = true := by
      simp only [ar]; norm_num
    simp [getVideoAspectRatio, h1, h2, h3]
  · have h1 : ar tol 1080 1920 9 = true := by
      simp only [ar]; norm_num
    have h2 : ar tol 1920 1080 16 = true := by
      simp only [ar]; norm_num
    simp [getVideoAspectRatio, h1, h2]
  · have h1 : ar tol 1000 1000 9 = false := by
      simp only [ar]; norm_num; omega
    have h2 : ar tol 1000 1000 16 = false := by
      simp only [ar]; norm_num; omega
    simp [getVideoAspectRatio, h1, h2]

/-- Witness of C1 at a tolerance of one percent. -/
theorem aspect_ratio_fixtures_witness :
    (10 : Nat) ≤ 437 ∧
    getVideoAspectRatio (ar 10)
      (fun _ => .parsed { Streams := { Width := 1920, Height := 1080 } :: [] }) "a.mp4"
      = .ok "16:9" :=
  ⟨by decide, (aspect_ratio_fixtures 10 (by decide) "a.mp4" []).1⟩

/-- Claim C2, at the failing input: when `ffprobe` reports no stream, `getVideoAspectRatio`
returns neither an error nor a classification; it panics on `vidSize.Streams[0]`, and the
handler dies with it without writing a response. -/
theorem no_streams_panics :
    (∀ (ar : Int → Int → Int → Bool) (filePath : String),
      getVideoAspectRatio ar (fun _ => .parsed { Streams := [] }) filePath
        = .panic "index out of range [0] with length 0") ∧
    (handlerUploadVideo (ar 10) noStreamsWorld).response = none ∧
    (handlerUploadVideo (ar 10) noStreamsWorld).panic
      = some "index out of range [0] with length 0" :=
  ⟨fun _ _ => rfl, by decide⟩

/-! ## Routing of the object key -/

theorem getVideoAspectRatio_ok (ar : Int → Int → Int → Bool) (ffprobe : String → ProbeResult)
    (filePath ratio : String) (h : getVideoAspectRatio ar ffprobe filePath = .ok ratio) :
    ratio = "16:9" ∨ ratio = "9:16" ∨ ratio = "other" := by
  unfold getVideoAspectRatio at h
  split at h
  · simp at h
  · simp at h
  · split at h
    · simp at h
    · simp only [] at h
      split_ifs at h <;> simp at h <;> simp [← h]

/-- On success `processVideoForFastStart` returns its input path with `.processing`. -/
theorem processVideoForFastStart_some (w : World) (filePath out : String)
    (h : (processVideoForFastStart w filePath).1 = some out) :
    out = filePath ++ ".processing" := by
  unfold processVideoForFastStart at h
  split at h <;> simp at h
  exact h.symm

/-- The random identifier holds no slash. -/
theorem randStr_no_slash (fill : Nat → Nat) :
    (EncodeToString (randBytes fill)).data.count '/' = 0 := by
  rw [List.count_eq_zero]
  intro hmem
  have := rawURLEncode_safe _ _ hmem
  revert this
  decide

/-- On each of the three classifications `routeKey` puts exactly one directory in front. -/
theorem routeKey_cases (ratio key : String)
    (h : ratio = "16:9" ∨ ratio = "9:16" ∨ ratio = "other") :
    ∃ dir, ((ratio = "16:9" ∧ dir = "landscape") ∨ (ratio = "9:16" ∧ dir = "portrait") ∨
      (ratio = "other" ∧ dir = "other")) ∧ routeKey ratio key = dir ++ "/" ++ key := by
  rcases h with h | h | h
  · subst h; exact ⟨"landscape", Or.inl ⟨rfl, rfl⟩, by simp [routeKey]⟩
  · subst h; exact ⟨"portrait", Or.inr (Or.inl ⟨rfl, rfl⟩), by simp [routeKey]⟩
  · subst h; exact ⟨"other", Or.inr (Or.inr ⟨rfl, rfl⟩), by simp [routeKey]⟩

/-- Claim C7: on every successful video upload exactly one `PutObject` is issued; its key is
`<dir>/<random-id>.mp4`, where `<dir>` is `landscape`, `portrait` or `other` according to
the classification "16:9", "9:16" or "other" returned by `getVideoAspectRatio`; the key
holds exactly one slash; and the record passed to `UpdateVideo` and returned has `VideoURL`
set to the distribution base, a slash, and that key. -/
theorem video_key_routing (ar : Int → Int → Int → Bool) (w : World) (payload : Payload)
    (h : (handlerUploadVideo ar w).response = some (.json StatusOK payload)) :
    ∃ (video : Video) (tempName : String) (fill : Nat → Nat) (ratio dir key : String),
      w.createTemp = some tempName ∧ w.randRead = some fill ∧
      getVideoAspectRatio ar w.ffprobe (tempName ++ ".processing") = .ok ratio ∧
      ((ratio = "16:9" ∧ dir = "landscape") ∨ (ratio = "9:16" ∧ dir = "portrait") ∨
        (ratio = "other" ∧ dir = "other")) ∧
      key = dir ++ "/" ++ (EncodeToString (randBytes fill) ++ ".mp4") ∧
      key.data.count '/' = 1 ∧
      putObjectKeys (handlerUploadVideo ar w).trace = [key] ∧
      Event.UpdateVideo { video with VideoURL := some (w.s3CfDistribution ++ "/" ++ key) }
        ∈ (handlerUploadVideo ar w).trace ∧
      payload = .record { video with VideoURL := some (w.s3CfDistribution ++ "/" ++ key) } := by
  generalize ho : handlerUploadVideo ar w = o at h ⊢
  unfold handlerUploadVideo at ho
  simp only [randStr_ne_empty, if_false] at ho
  repeat' split at ho
  all_goals subst ho
  all_goals try (solve | simp [respondWithError, panicWith] at h)
  rename_i tempName htemp _ _ _ fsTemp hfs _ _ fill hfill _ ratio hratio _ _
  rename_i video _ _ _ _ _ _ _ _ _ _ _ _ _ _ _ _ _ _
  have hfs2 := processVideoForFastStart_some w tempName fsTemp hfs
  subst hfs2
  obtain ⟨dir, hdir, hkey⟩ := routeKey_cases ratio (EncodeToString (randBytes fill) ++ ".mp4")
    (getVideoAspectRatio_ok ar w.ffprobe _ ratio hratio)
  refine ⟨video, tempName, fill, ratio, dir, _, htemp, hfill, hratio, hdir, rfl, ?_, ?_, ?_, ?_⟩
  · have hc := randStr_no_slash fill
    rcases hdir with ⟨_, rfl⟩ | ⟨_, rfl⟩ | ⟨_, rfl⟩ <;>
      simp [String.data_append, List.count_append, hc]
  · simp [respondWithJSON, putObjectKeys, processVideoForFastStart, hkey]
    split <;> simp [putObjectKeys]
  · simp [respondWithJSON, hkey]
  · simp [respondWithJSON] at h
    rw [← h, hkey]

/-- Witness of C7 at `okWorld`, whose upload succeeds with a landscape key. -/
theorem video_key_routing_witness :
    (handlerUploadVideo (ar 10) okWorld).response
      = some (.json StatusOK (.record okUploadedVideo)) ∧
    ∃ key : String, key.data.count '/' = 1 ∧
      putObjectKeys (handlerUploadVideo (ar 10) okWorld).trace = [key] := by
  refine ⟨by decide, ?_⟩
  obtain ⟨_, _, _, _, _, key, _, _, _, _, _, hcount, hput, _, _⟩ :=
    video_key_routing (ar 10) okWorld (.record okUploadedVideo) (by decide)
  exact ⟨key, hcount, hput⟩

/-! ## Ownership and content-type checks -/

/-- Claim C4: when every earlier step succeeds and the bearer token validates to a user who
is not the owner of the video, both handlers answer 401 "Unauthorized user" and perform no
effect at all: no file, no blob, no `UpdateVideo`. -/
theorem not_owner_unauthorized (ar : Int → Int → Int → Bool) (wt wv : World)
    (idt uidt idv uidv : UUID) (tokt tokv ct mt : String) (vt vv : Video)
    (hidt : wt.videoID = some idt) (htokt : wt.bearerToken = some tokt)
    (hjwtt : wt.validateJWT tokt = some uidt) (hformt : wt.parseMultipartFormErr = false)
    (hfilet : wt.formFile "thumbnail" = some ct) (hct : ct ≠ "")
    (hmt : ParseMediaType wt ct = some mt) (hallow : mt = "image/jpeg" ∨ mt = "image/png")
    (hgett : wt.getVideo idt = some vt) (hownt : vt.UserID ≠ uidt)
    (hparsev : wv.parseFormErr = false) (hidv : wv.videoID = some idv)
    (htokv : wv.bearerToken = some tokv) (hjwtv : wv.validateJWT tokv = some uidv)
    (hgetv : wv.getVideo idv = some vv) (hownv : vv.UserID ≠ uidv) :
    handlerUploadThumbnail wt
      = { response := some (.error StatusUnauthorized "Unauthorized user"),
          panic := none, trace := [] } ∧
    handlerUploadVideo ar wv
      = { response := some (.error StatusUnauthorized "Unauthorized user"),
          panic := none, trace := [] } := by
  constructor
  · have hallow2 : ¬(mt ≠ "image/jpeg" ∧ mt ≠ "image/png") := by
      rcases hallow with h | h <;> simp [h]
    simp only [handlerUploadThumbnail, hidt, htokt, hjwtt, hformt, hfilet, hct, hmt, hgett]
    simp [hallow2, hownt, respondWithError]
  · simp only [handlerUploadVideo, hparsev, hidv, htokv, hjwtv, hgetv]
    simp [hownv, respondWithError]

/-- Witness of C4 at `otherUserWorld`, where user 2 uploads to the video of user 1. -/
theorem not_owner_unauthorized_witness :
    sampleVideo.UserID ≠ 2 ∧
    (handlerUploadThumbnail otherUserWorld).response
      = some (.error StatusUnauthorized "Unauthorized user") ∧
    (handlerUploadVideo (ar 10) otherUserWorld).trace = [] := by
  have h := not_owner_unauthorized (ar 10) otherUserWorld otherUserWorld 7 2 7 2
    "token-of-user-2" "token-of-user-2" "image/png" "image/png" sampleVideo sampleVideo
    (by decide) (by decide) (by decide) (by decide) (by decide) (by decide) (by decide)
    (by decide) (by decide) (by decide) (by decide) (by decide) (by decide) (by decide)
    (by decide) (by decide)
  exact ⟨by decide, by rw [h.1], by rw [h.2]⟩

/-- Claim C5: when the steps before the content-type check succeed and the declared content
type of the part is empty, unparsable, or parses to a type outside the allow-list
(`image/jpeg`, `image/png` for the thumbnail; `video/mp4` for the video), the handler
answers 400 and performs no effect at all: no `os.Create`, no `os.CreateTemp`, no blob
write, no `UpdateVideo`. -/
theorem bad_content_type_rejected (ar : Int → Int → Int → Bool) (wt wv : World)
    (idt uidt idv uidv : UUID) (tokt tokv ctt ctv : String) (vv : Video)
    (hidt : wt.videoID = some idt) (htokt : wt.bearerToken = some tokt)
    (hjwtt : wt.validateJWT tokt = some uidt) (hformt : wt.parseMultipartFormErr = false)
    (hfilet : wt.formFile "thumbnail" = some ctt)
    (hbadt : ctt = "" ∨ ParseMediaType wt ctt = none ∨
      ∃ mt, ParseMediaType wt ctt = some mt ∧ mt ≠ "image/jpeg" ∧ mt ≠ "image/png")
    (hparsev : wv.parseFormErr = false) (hidv : wv.videoID = some idv)
    (htokv : wv.bearerToken = some tokv) (hjwtv : wv.validateJWT tokv = some uidv)
    (hgetv : wv.getVideo idv = some vv) (hownv : vv.UserID = uidv)
    (hfilev : wv.formFile "video" = some ctv)
    (hbadv : ctv = "" ∨ ParseMediaType wv ctv = none ∨
      ∃ mt, ParseMediaType wv ctv = some mt ∧ mt ≠ "video/mp4") :
    (∃ msg, handlerUploadThumbnail wt
      = { response := some (.error StatusBadRequest msg), panic := none, trace := [] }) ∧
    (∃ msg, handlerUploadVideo ar wv
      = { response := some (.error StatusBadRequest msg), panic := none, trace := [] }) := by
  constructor
  · simp only [handlerUploadThumbnail, hidt, htokt, hjwtt, hformt, hfilet]
    by_cases hempty : ctt = ""
    · exact ⟨"Empty Content-Type", by simp [hempty, respondWithError]⟩
    · rcases hbadt with h | h | ⟨mt, h, hne⟩
      · exact absurd h hempty
      · exact ⟨"Unable to parse Content-Type", by simp [hempty, h, respondWithError]⟩
      · exact ⟨"Invalid file", by simp [hempty, h, hne, respondWithError]⟩
  · simp only [handlerUploadVideo, hparsev, hidv, htokv, hjwtv, hgetv]
    have hnone : ctv = "" → ParseMediaType wv ctv = none := by
      intro h; simp [ParseMediaType, h]
    rcases hbadv with h | h | ⟨mt, h, hne⟩
    · exact ⟨"Invalid Content-Type", by simp [hownv, hfilev, hnone h, respondWithError]⟩
    · exact ⟨"Invalid Content-Type", by simp [hownv, hfilev, h, respondWithError]⟩
    · exact ⟨"Invalid file type", by simp [hownv, hfilev, h, hne, respondWithError]⟩

/-- Witness of C5 at `badTypeWorld`: a thumbnail declared `image/gif` and a video part
without content type. -/
theorem bad_content_type_rejected_witness :
    ParseMediaType badTypeWorld "image/gif" = some "image/gif" ∧
    (∃ msg, (handlerUploadThumbnail badTypeWorld).response
      = some (.error StatusBadRequest msg)) ∧
    (handlerUploadVideo (ar 10) badTypeWorld).trace = [] := by
  have h := bad_content_type_rejected (ar 10) badTypeWorld badTypeWorld 7 1 7 1
    "token-of-user-1" "token-of-user-1" "image/gif" "" sampleVideo
    (by decide) (by decide) (by decide) (by decide) (by decide)
    (Or.inr (Or.inr ⟨"image/gif", by decide, by decide, by decide⟩))
    (by decide) (by decide) (by decide) (by decide) (by decide) (by decide) (by decide)
    (Or.inl rfl)
  obtain ⟨⟨msgt, ht⟩, ⟨msgv, hv⟩⟩ := h
  exact ⟨by decide, ⟨msgt, by rw [ht]⟩, by rw [hv]⟩

/-! ## Failures of the write and commit steps -/

/-- The `ffmpeg` run recorded by `processVideoForFastStart`, whatever its result. -/
theorem processVideoForFastStart_snd (w : World) (filePath : String) :
    (processVideoForFastStart w filePath).2
      = Event.Ffmpeg filePath (filePath ++ ".processing") w.ffmpegWrote := by
  unfold processVideoForFastStart
  split <;> rfl

/-- The video handler does check the result of `UpdateVideo`: whenever the update it issued
is rejected, the response is the 500 "Unable to update video". -/
theorem video_update_failure_reported (ar : Int → Int → Int → Bool) (w : World) (v : Video)
    (hcall : Event.UpdateVideo v ∈ (handlerUploadVideo ar w).trace)
    (herr : w.updateVideoErr v = true) :
    (handlerUploadVideo ar w).response
      = some (.error StatusInternalServerError "Unable to update video") := by
  generalize ho : handlerUploadVideo ar w = o at hcall ⊢
  unfold handlerUploadVideo at ho
  simp only [randStr_ne_empty, if_false] at ho
  repeat' split at ho
  all_goals subst ho
  all_goals try (solve | simp [respondWithError, panicWith, processVideoForFastStart_snd] at hcall)
  · simp [respondWithError]
  · rename_i hok
    simp [respondWithJSON, processVideoForFastStart_snd] at hcall
    rw [hcall] at herr
    exact absurd herr hok

/-- Claim C3, at the failing input: in `updateFailsWorld` the thumbnail is written, the
repository rejects the update, and `handlerUploadThumbnail` still answers 200 with the
record carrying the new thumbnail URL, because it discards the result of `UpdateVideo`. -/
theorem thumbnail_ignores_update_failure :
    updateFailsWorld.updateVideoErr okThumbnailVideo = true ∧
    handlerUploadThumbnail updateFailsWorld
      = { response := some (.json StatusOK (.marshalled okThumbnailVideo)),
          panic := none,
          trace := [.Create okThumbnailPath, .Copy okThumbnailPath false,
            .UpdateVideo okThumbnailVideo] } := by
  decide

/-- Claim C9, at the failing inputs: in `copyFailsWorld` the copy of the thumbnail bytes
fails, yet `handlerUploadThumbnail` calls `UpdateVideo` and answers 200; in
`createTempFailsWorld` the video handler does not answer 500 but panics on
`tempFile.Name()`. -/
theorem write_failures_mishandled :
    handlerUploadThumbnail copyFailsWorld
      = { response := some (.json StatusOK (.marshalled okThumbnailVideo)),
          panic := none,
          trace := [.Create okThumbnailPath, .Copy okThumbnailPath true,
            .UpdateVideo okThumbnailVideo] } ∧
    handlerUploadVideo (ar 10) createTempFailsWorld
      = { response := none,
          panic := some "invalid memory address or nil pointer dereference",
          trace := [] } := by
  decide

/-! ## Removal of the staged files -/

/-- The files after a trace extended by a removal. -/
theorem filesAfter_append_remove (fs : List String) (es : List Event) (p : String) :
    filesAfter fs (es ++ [.Remove p]) = (filesAfter fs es).filter (fun f => f ≠ p) := by
  induction es generalizing fs with
  | nil => simp [filesAfter]
  | cons e es ih =>
    cases e with
    | Ffmpeg i o wrote => cases wrote <;> simp [filesAfter, ih]
    | _ => simp [filesAfter, ih]

/-- The files after a trace that ends with one more event and a removal. -/
theorem filesAfter_append_two (fs : List String) (es : List Event) (e : Event) (p : String) :
    filesAfter fs (es ++ [e, .Remove p])
      = (filesAfter fs (es ++ [e])).filter (fun f => f ≠ p) := by
  rw [show es ++ [e, Event.Remove p] = (es ++ [e]) ++ [Event.Remove p] by simp]
  exact filesAfter_append_remove fs _ p

/-- The part of C6 that does hold: once `os.CreateTemp` has created the staged upload, that
file is gone when the handler returns, on every path, panics included. -/
theorem staged_upload_removed (ar : Int → Int → Int → Bool) (w : World) (fs : List String)
    (name : String) (hmem : Event.CreateTemp name ∈ (handlerUploadVideo ar w).trace) :
    name ∉ filesAfter fs (handlerUploadVideo ar w).trace := by
  generalize ho : handlerUploadVideo ar w = o at hmem ⊢
  unfold handlerUploadVideo at ho
  simp only [randStr_ne_empty, if_false] at ho
  repeat' split at ho
  all_goals subst ho
  all_goals try (solve | simp [respondWithError, panicWith] at hmem)
  all_goals
    simp [respondWithError, respondWithJSON, panicWith, processVideoForFastStart_snd] at hmem
    subst hmem
    simp only [respondWithError, respondWithJSON, panicWith]
    first
      | rw [filesAfter_append_remove]
      | rw [filesAfter_append_two]
    simp [List.mem_filter]

/-- Claim C6, at the failing inputs: in `openFailsWorld` the handler panics while
registering the second removal, and in `ffmpegFailsWorld` it answers 500 before
registering it; either way the staged upload is removed but the `.processing` file that
`ffmpeg` wrote is still there when the handler returns. -/
theorem processing_file_left_behind :
    (handlerUploadVideo (ar 10) openFailsWorld).panic
      = some "invalid memory address or nil pointer dereference" ∧
    filesAfter [] (handlerUploadVideo (ar 10) openFailsWorld).trace
      = ["/tmp/tubely-upload.mp4123.processing"] ∧
    (handlerUploadVideo (ar 10) ffmpegFailsWorld).response
      = some (.error StatusInternalServerError "Unable to process fro fast start") ∧
    filesAfter [] (handlerUploadVideo (ar 10) ffmpegFailsWorld).trace
      = ["/tmp/tubely-upload.mp4123.processing"] := by
  decide

/-! ## The thumbnail path -/

/-- Scanning a path up to a slash and then the rest gives the same state as scanning the
whole path: the look-ahead of the loop never reads past a slash. -/
theorem cleanLoop_append_slash (rooted : Bool) (ys : List Char) (xs : List Char)
    (st : CleanState) :
    cleanLoop rooted (xs ++ '/' :: ys) st
      = cleanLoop rooted ('/' :: ys) (cleanLoop rooted xs st) := by
  induction xs, st using cleanLoop.induct rooted with
  | case1 st => simp [cleanLoop]
  | case2 st h => simp [cleanLoop, h]
  | case3 c st h hc => simp [cleanLoop, h, hc]
  | case4 st h => simp [cleanLoop, h]
  | case5 st h _ => simp [cleanLoop, h]
  | case6 c st h hc hd => simp [cleanLoop, h, hc, hd]
  | case7 d rest st h ih => simpa [cleanLoop, h] using ih
  | case8 c d rest st h hc ih => simpa [cleanLoop, h, hc] using ih
  | case9 d rest st h ih => simpa [cleanLoop, h] using ih
  | case10 c d rest st h hc hcd ih => simpa [cleanLoop, h, hc, hcd] using ih
  | case11 c d rest st h hc hcd hdd ih =>
    have hdd2 : c = '.' ∧ d = '.' ∧ (rest ++ '/' :: ys = [] ∨ (rest ++ '/' :: ys).head? = some '/') := by
      refine ⟨hdd.1, hdd.2.1, Or.inr ?_⟩
      rcases hdd.2.2 with h0 | h0
      · simp [h0]
      · cases rest with
        | nil => simp
        | cons r rs => simpa using h0
    rw [List.cons_append, List.cons_append, cleanLoop, cleanLoop]
    simp only [h, hc, hcd, hdd, hdd2]
    simpa using ih
  | case12 c d rest st h hc hcd hdd ih =>
    have hdd2 : ¬ (c = '.' ∧ d = '.' ∧ (rest ++ '/' :: ys = [] ∨ (rest ++ '/' :: ys).head? = some '/')) := by
      rintro ⟨h1, h2, h3⟩
      apply hdd
      refine ⟨h1, h2, ?_⟩
      cases rest with
      | nil => exact Or.inl rfl
      | cons r rs => right; simpa using h3
    rw [List.cons_append, List.cons_append, cleanLoop, cleanLoop]
    simp only [h, hc, hcd, hdd, hdd2]
    simpa using ih


/-- Inside an element, bytes other than a slash are copied to the buffer. -/
theorem cleanLoop_copy (rooted : Bool) (xs : List Char) (st : CleanState)
    (hin : st.inElem = true) (hxs : '/' ∉ xs) :
    cleanLoop rooted xs st = { st with out := st.out ++ xs } := by
  induction xs generalizing st with
  | nil => simp [cleanLoop]
  | cons c cs ih =>
    have hc : ¬ c = '/' := fun h => hxs (by simp [h])
    have hcs : '/' ∉ cs := fun h => hxs (List.mem_cons_of_mem _ h)
    cases cs with
    | nil => simp [cleanLoop, hin, hc]
    | cons d ds =>
      rw [cleanLoop]
      simp only [hin, hc, if_true, if_false]
      rw [ih _ rfl hcs]
      simp

/-- An element that starts with a byte other than a slash or a dot is copied whole. -/
theorem cleanLoop_elem (rooted : Bool) (c : Char) (cs : List Char) (st : CleanState)
    (hin : st.inElem = false) (hc1 : c ≠ '/') (hc2 : c ≠ '.') (hcs : '/' ∉ cs) :
    cleanLoop rooted (c :: cs) st
      = { startElem rooted c st with out := (startElem rooted c st).out ++ cs } := by
  cases cs with
  | nil => simp [cleanLoop, hin, hc1, hc2]
  | cons d ds =>
    rw [cleanLoop]
    simp only [hin, hc1, hc2, false_and, if_false, Bool.false_eq_true]
    rw [cleanLoop_copy rooted _ _ (by simp [startElem]) hcs]

/-- Appending a plain element to a clean path other than `.` and `/` leaves `path.Clean`
nothing to rewrite. -/
theorem cleanChars_append_elem (root name : List Char) (c : Char) (cs : List Char)
    (hname : name = c :: cs) (hc1 : c ≠ '/') (hc2 : c ≠ '.') (hcs : '/' ∉ cs)
    (hclean : cleanChars root = root) (hdot : root ≠ ['.']) (hslash : root ≠ ['/']) :
    cleanChars (root ++ '/' :: name) = root ++ '/' :: name := by
  subst hname
  cases root with
  | nil => simp [cleanChars] at hclean
  | cons r rs =>
    simp only [cleanChars, List.cons_append] at hclean ⊢
    rw [← List.cons_append, cleanLoop_append_slash]
    generalize hst : cleanLoop (r == '/') (r :: rs)
      (if (r == '/') = true then { inElem := false, out := ['/'], dotdot := 1 }
        else { inElem := false, out := [], dotdot := 0 }) = st at hclean ⊢
    have hout : st.out = r :: rs := by
      split at hclean
      · exact absurd hclean.symm hdot
      · exact hclean
    have hrs : r = '/' → rs ≠ [] := fun hr h => hslash (by simp [hr, h])
    have hstep : cleanLoop (r == '/') ('/' :: c :: cs) st
        = cleanLoop (r == '/') (c :: cs) { st with inElem := false } := by
      rw [cleanLoop]
      cases st with
      | mk inElem out dotdot => cases inElem <;> simp
    rw [hstep, cleanLoop_elem _ c cs _ rfl hc1 hc2 hcs]
    by_cases hr : r = '/'
    · simp [startElem, hout, hr, hrs hr]
    · simp [startElem, hout, hr]


/-- The random identifier starts with a byte other than a slash or a dot, and holds no
slash. -/
theorem rawURLEncode_randBytes_cons (fill : Nat → Nat) :
    ∃ c cs, rawURLEncode (randBytes fill) = c :: cs ∧ c ≠ '/' ∧ c ≠ '.' ∧ '/' ∉ cs := by
  have hlen := rawURLEncode_length (randBytes fill)
  rw [randBytes_length] at hlen
  have hsafe := rawURLEncode_safe (randBytes fill)
  cases hr : rawURLEncode (randBytes fill) with
  | nil => rw [hr] at hlen; simp at hlen
  | cons c cs =>
    rw [hr] at hsafe
    have hc := hsafe c (by simp)
    refine ⟨c, cs, rfl, ?_, ?_, ?_⟩
    · rintro rfl; revert hc; decide
    · rintro rfl; revert hc; decide
    · intro hmem
      have := hsafe '/' (List.mem_cons_of_mem _ hmem)
      revert this; decide

/-- Below a clean assets root other than `.` and `/`, the thumbnail path is already clean. -/
theorem Clean_thumbnail_path (root ext : String) (fill : Nat → Nat)
    (hext : ext = "jpeg" ∨ ext = "png")
    (hclean : Clean root = root) (hdot : root ≠ ".") (hslash : root ≠ "/") :
    Clean (root ++ "/" ++ EncodeToString (randBytes fill) ++ "." ++ ext)
      = root ++ "/" ++ EncodeToString (randBytes fill) ++ "." ++ ext := by
  obtain ⟨c, cs, hr, hc1, hc2, hcs⟩ := rawURLEncode_randBytes_cons fill
  have hclean2 : cleanChars root.data = root.data := by
    have := congrArg String.data hclean
    simpa [Clean] using this
  have hdot2 : root.data ≠ ['.'] := fun h => hdot (by ext1; simpa using h)
  have hslash2 : root.data ≠ ['/'] := fun h => hslash (by ext1; simpa using h)
  have hextslash : '/' ∉ ext.data := by
    rcases hext with h | h <;> subst h <;> decide
  have hcs2 : '/' ∉ cs ++ '.' :: ext.data := by
    simp only [List.mem_append, List.mem_cons, not_or]
    exact ⟨hcs, by decide, hextslash⟩
  have key := cleanChars_append_elem root.data _ c (cs ++ '.' :: ext.data) rfl hc1 hc2 hcs2
    hclean2 hdot2 hslash2
  ext1
  simp only [Clean, EncodeToString, String.data_append, hr]
  simpa using key


/-- On the two allowed media types `strings.Split(mediaType, "/")` has an element 1. -/
theorem Split_allowed (mt : String) (h : ¬(mt ≠ "image/jpeg" ∧ mt ≠ "image/png")) :
    (mt = "image/jpeg" ∧ (Split mt '/').get? 1 = some "jpeg") ∨
    (mt = "image/png" ∧ (Split mt '/').get? 1 = some "png") := by
  by_cases h1 : mt = "image/jpeg"
  · subst h1; exact Or.inl ⟨rfl, by decide⟩
  · by_cases h2 : mt = "image/png"
    · subst h2; exact Or.inr ⟨rfl, by decide⟩
    · exact absurd ⟨h1, h2⟩ h

/-- The thumbnail handler never panics: index 1 of the split media type exists whenever the
allow-list check has passed. -/
theorem thumbnail_never_panics (w : World) : (handlerUploadThumbnail w).panic = none := by
  generalize ho : handlerUploadThumbnail w = o
  unfold handlerUploadThumbnail at ho
  simp only [randStr_ne_empty, if_false] at ho
  repeat' split at ho
  all_goals subst ho
  all_goals try exact rfl
  rename_i hallow _ _ _ _ _ _ _ _ hsplit
  rcases Split_allowed _ hallow with ⟨_, h⟩ | ⟨_, h⟩ <;> rw [h] at hsplit <;> simp at hsplit

/-- The argument of `path.Join` at line 95 is never empty, so it is cleaned. -/
theorem Join_thumbnail (root rid ext : String) :
    Join (root ++ "/" ++ rid ++ "." ++ ext) = Clean (root ++ "/" ++ rid ++ "." ++ ext) := by
  unfold Join
  rw [if_neg]
  intro h
  have := congrArg String.length h
  simp at this
  exact absurd this.1.1.1.2 (by decide)

/-- The thumbnail URL is never the empty string. -/
theorem thumbnail_url_ne_empty (port filePath : String) :
    "http://localhost:" ++ port ++ "/" ++ filePath ≠ "" := by
  intro h
  have := congrArg String.length h
  simp at this
  exact absurd this.1.2 (by decide)

/-- Claim C10, amended: the thumbnail handler never panics on `strings.Split(mediaType,
"/")[1]`; on every successful upload the extension is `jpeg` for `image/jpeg` and `png`
for `image/png`, the file is stored at `path.Clean` of `<assetsRoot>/<random-id>.<ext>`,
which is that very string whenever `assetsRoot` is a clean path other than `.` and `/`,
and the record's thumbnail location is the non-empty string `http://localhost:<port>/`
followed by the stored path. -/
theorem thumbnail_path_and_url (w : World) (payload : Payload)
    (h : (handlerUploadThumbnail w).response = some (.json StatusOK payload)) :
    (handlerUploadThumbnail w).panic = none ∧
    ∃ (video : Video) (fill : Nat → Nat) (ct mediaType ext filePath url : String),
      w.formFile "thumbnail" = some ct ∧ ParseMediaType w ct = some mediaType ∧
      w.randRead = some fill ∧
      ((mediaType = "image/jpeg" ∧ ext = "jpeg") ∨ (mediaType = "image/png" ∧ ext = "png")) ∧
      filePath = Clean (w.assetsRoot ++ "/" ++ EncodeToString (randBytes fill) ++ "." ++ ext) ∧
      (Clean w.assetsRoot = w.assetsRoot → w.assetsRoot ≠ "." → w.assetsRoot ≠ "/" →
        filePath = w.assetsRoot ++ "/" ++ EncodeToString (randBytes fill) ++ "." ++ ext) ∧
      url = "http://localhost:" ++ w.port ++ "/" ++ filePath ∧ url ≠ "" ∧
      (handlerUploadThumbnail w).trace = [.Create filePath, .Copy filePath w.copyErr,
        .UpdateVideo { video with ThumbnailURL := some url }] ∧
      payload = .marshalled { video with ThumbnailURL := some url } := by
  refine ⟨thumbnail_never_panics w, ?_⟩
  generalize ho : handlerUploadThumbnail w = o at h ⊢
  unfold handlerUploadThumbnail at ho
  simp only [randStr_ne_empty, if_false] at ho
  repeat' split at ho
  all_goals subst ho
  all_goals try exact absurd h (by simp [respondWithError, panicWith])
  rename_i ct hfile hct _ mediaType hmt hallow _ video hget hown _ fill hfill _ ext hext
    hcreate hmarshal
  have hext2 : (mediaType = "image/jpeg" ∧ ext = "jpeg") ∨
      (mediaType = "image/png" ∧ ext = "png") := by
    rcases Split_allowed mediaType hallow with ⟨hm, hs⟩ | ⟨hm, hs⟩
    · rw [hs] at hext; exact Or.inl ⟨hm, (Option.some.inj hext).symm⟩
    · rw [hs] at hext; exact Or.inr ⟨hm, (Option.some.inj hext).symm⟩
  have hext3 : ext = "jpeg" ∨ ext = "png" := by
    rcases hext2 with ⟨_, h1⟩ | ⟨_, h1⟩
    · exact Or.inl h1
    · exact Or.inr h1
  simp only [Join_thumbnail, respondWithJSON] at h ⊢
  refine ⟨video, fill, ct, mediaType, ext, _, _, hfile, hmt, hfill, hext2, rfl, ?_, rfl,
    thumbnail_url_ne_empty _ _, rfl, ?_⟩
  · intro hclean hdot hslash
    exact Clean_thumbnail_path _ ext fill hext3 hclean hdot hslash
  · simp at h
    exact h.symm


/-- Counterexample to C10 as stated: in `okWorld` the upload succeeds, the assets root is
`./assets`, and the file is stored at `assets/<random-id>.png`, which is not
`<assetsRoot>/<random-id>.png`. -/
theorem thumbnail_path_is_cleaned :
    (handlerUploadThumbnail okWorld).response
      = some (.json StatusOK (.marshalled okThumbnailVideo)) ∧
    EncodeToString (randBytes (fun i => i)) = okRandStr ∧
    (handlerUploadThumbnail okWorld).trace.head?
      = some (.Create ("assets/" ++ okRandStr ++ ".png")) ∧
    "assets/" ++ okRandStr ++ ".png" ≠ okWorld.assetsRoot ++ "/" ++ okRandStr ++ "." ++ "png" := by
  decide

/-- Witness of the amended C10 at `cleanRootWorld`, whose assets root `assets` is clean. -/
theorem thumbnail_path_and_url_witness :
    (handlerUploadThumbnail cleanRootWorld).response
      = some (.json StatusOK (.marshalled okThumbnailVideo)) ∧
    Clean cleanRootWorld.assetsRoot = cleanRootWorld.assetsRoot ∧
    (handlerUploadThumbnail cleanRootWorld).panic = none :=
  ⟨by decide, by decide,
    (thumbnail_path_and_url cleanRootWorld (.marshalled okThumbnailVideo) (by decide)).1⟩

end Tubely
